import Mathlib

/-!
# Verification of the conntrack metrics collector

Shallow embedding of `plugins/inputs/conntrack/conntrack.go` (package
`conntrack`).  The plugin walks configured directories × candidate
filenames, normalizes the filenames into one metric namespace, reads and
parses the values into a field set, optionally collects platform
connection-tracking statistics through a provider, and emits everything to
an accumulator.

External collaborators are parameters of the embedding, mirroring the
interfaces the Go code programs against:
* the filesystem is a function `FS := String → FileState`
  (`os.Stat` succeeds exactly when the file is not absent;
  `ioutil.ReadFile` succeeds exactly when it is readable);
* `strconv.ParseFloat(v, 64)` is a parameter
  `parse : String → ℚ × Bool`, returning the value the call yields
  together with `err == nil`; Go writes the returned value into the map
  even when `err != nil` (for a syntax error that value is 0).  Numeric
  values are modelled as `ℚ`; float64 range clamping is not modelled and
  none of the verified properties depends on it;
* the platform statistics provider `system.PS.NetConntrack` is a
  parameter `ps : Bool → Except String (List ConntrackStat)`: a sequence
  of raw counter structs or an error;
* the accumulator is modelled by the `Output` structure: the ordered
  list of non-fatal errors (`acc.AddError`), the tagged counter records
  (`acc.AddCounter`), the at-most-one fields record (`acc.AddFields`),
  and the value `Gather` returns.

`filepath.Join` is modelled as concatenation with a separator; its path
cleaning is irrelevant here because the filesystem parameter is keyed by
the joined string.  The quoting punctuation of the Go error messages is
elided; the message texts are otherwise kept.
-/

/-- State of one path in the modelled filesystem. -/
inductive FileState where
  | absent
  | unreadable
  | readable (contents : String)
deriving DecidableEq, Repr

/-- The filesystem collaborator: path to state. -/
def FS : Type := String → FileState

/-- One raw stat entry returned by the provider: the 17 unsigned counters
of `gopsutil`'s `net.ConntrackStat`, modelled as `Nat`. -/
structure ConntrackStat where
  entries : Nat
  searched : Nat
  new : Nat
  found : Nat
  invalid : Nat
  ignore : Nat
  delete : Nat
  deleteList : Nat
  insert : Nat
  insertFailed : Nat
  drop : Nat
  earlyDrop : Nat
  icmpError : Nat
  expectNew : Nat
  expectCreate : Nat
  expectDelete : Nat
  searchRestart : Nat
deriving DecidableEq, Repr

/-- The `Conntrack` struct (the unused `Path` field and the `ps` handle,
which is a parameter of `Gather` here, are omitted). -/
structure Conntrack where
  dirs : List String
  files : List String
  collectStats : Bool
  perCPU : Bool
deriving DecidableEq, Repr

/-- `dfltDirs` of the source. -/
def dfltDirs : List String :=
  ["/proc/sys/net/ipv4/netfilter", "/proc/sys/net/netfilter"]

/-- `dfltFiles` of the source. -/
def dfltFiles : List String :=
  ["ip_conntrack_count", "ip_conntrack_max",
   "nf_conntrack_count", "nf_conntrack_max"]

/-- `NewConntrack`: sets `CollectStats: true`, `PerCPU: false`, leaves
the slices nil. -/
def NewConntrack : Conntrack :=
  { dirs := [], files := [], collectStats := true, perCPU := false }

/-- The collector produced by the factory registered in the source's
`init` function: `&Conntrack\x7b\x7d`, the Go zero value — nil slices and
both booleans false. -/
def registryConntrack : Conntrack :=
  { dirs := [], files := [], collectStats := false, perCPU := false }

/-- `setDefaults`: substitute the package defaults for empty lists. -/
def setDefaults (c : Conntrack) : Conntrack :=
  let c1 := if c.dirs = [] then { c with dirs := dfltDirs } else c
  if c1.files = [] then { c1 with files := dfltFiles } else c1

/-- `inputName`. -/
def inputName : String := "conntrack"

/-- Error text of a failed `ioutil.ReadFile` (source line 111). -/
def readErrMsg (fName : String) : String :=
  "E! failed to read file " ++ fName

/-- Error text of a failed `strconv.ParseFloat` (source lines 118-119;
the source has a double space before `found`). -/
def parseErrMsg (v : String) : String :=
  "E! failed to parse metric, expected number but  found " ++ v

/-- Error text of a failed provider call (source line 127). -/
def statsErrMsg (e : String) : String :=
  "E! failed to retrieve conntrack statistics: " ++ e

/-- The hard error returned when the field set is empty
(source lines 165-168). -/
def moduleNotLoadedMsg : String :=
  "Conntrack input failed to collect metrics. " ++
  "Is the conntrack kernel module loaded?"

/-- `filepath.Join(dir, file)`. -/
def joinPath (dir file : String) : String := dir ++ "/" ++ file

/-- Split a character list at its first underscore:
`some (before, after)`, or `none` when no underscore occurs. -/
def splitAtUnderscore : List Char → Option (List Char × List Char)
  | [] => none
  | c :: cs =>
    if c = '_' then some ([], cs)
    else
      match splitAtUnderscore cs with
      | none => none
      | some (a, b) => some (c :: a, b)

/-- The metric key of a candidate filename (source lines 96-102):
`strings.SplitN(file, "_", 2)`; fewer than two parts means the candidate
is skipped (`none`); otherwise the key is `"ip_" ++ parts[1]`. -/
def metricKeyOf (file : String) : Option String :=
  match splitAtUnderscore file.data with
  | none => none
  | some (_, suffix) => some ("ip_" ++ String.mk suffix)

/-- Whether a character is whitespace for `strings.TrimSpace`
(`unicode.IsSpace`): space, tab, newline, vertical tab, form feed,
carriage return, NEL and NBSP. -/
def isSpaceChar (c : Char) : Bool :=
  c = ' ' || c = '\t' || c = '\n' || c = (Char.ofNat 11) ||
  c = (Char.ofNat 12) || c = '\r' || c = (Char.ofNat 133) ||
  c = (Char.ofNat 160)

/-- `strings.TrimSpace`: remove leading and trailing whitespace. -/
def trimSpace (s : String) : String :=
  String.mk
    (((s.data.dropWhile isSpaceChar).reverse.dropWhile
        isSpaceChar).reverse)

/-- Insert-or-replace in an association list; models assignment to a Go
`map` key (Go maps are unordered, so any canonical order works; this one
keeps first-insertion order, which both cycles of a deterministic run
share). -/
def upsert (m : List (String × ℚ)) (k : String) (v : ℚ) :
    List (String × ℚ) :=
  match m with
  | [] => [(k, v)]
  | (k1, v1) :: rest =>
    if k1 = k then (k, v) :: rest else (k1, v1) :: upsert rest k v

/-- Mutable state of the file pass: the `fields` map and the errors
passed to `acc.AddError` so far. -/
structure GatherSt where
  fields : List (String × ℚ)
  errors : List String
deriving DecidableEq, Repr

/-- Body of the inner loop of `Gather` (source lines 94-121) for one
`(dir, file)` candidate.  Faithful points: a filename with no underscore
is skipped before any filesystem access; a missing file is skipped
silently; an unreadable file records an error and is skipped; a readable
file is trimmed and parsed, and the value returned by the parse call is
written into the map by the two-value assignment
`fields[metricKey], err = strconv.ParseFloat(v, 64)` whether or not the
parse succeeded, with an error recorded on failure. -/
def processFile (parse : String → ℚ × Bool) (fs : FS)
    (dir file : String) (st : GatherSt) : GatherSt :=
  match metricKeyOf file with
  | none => st
  | some key =>
    let fName := joinPath dir file
    match fs fName with
    | FileState.absent => st
    | FileState.unreadable =>
      { st with errors := st.errors ++ [readErrMsg fName] }
    | FileState.readable contents =>
      let v := trimSpace contents
      let pr := parse v
      if pr.2 then { st with fields := upsert st.fields key pr.1 }
      else
        { fields := upsert st.fields key pr.1,
          errors := st.errors ++ [parseErrMsg v] }

/-- The double loop of `Gather` (source lines 94-121): outer over
directories, inner over candidate filenames. -/
def fileLoop (parse : String → ℚ × Bool) (fs : FS)
    (dirs files : List String) : GatherSt :=
  dirs.foldl
    (fun st dir =>
      files.foldl (fun st file => processFile parse fs dir file st) st)
    { fields := [], errors := [] }

/-- One tagged counter record passed to `acc.AddCounter`. -/
structure StatRecord where
  name : String
  tags : List (String × String)
  fields : List (String × Nat)
deriving DecidableEq, Repr

/-- One fields record passed to `acc.AddFields`. -/
structure FieldsRecord where
  name : String
  fields : List (String × ℚ)
  tags : List (String × String)
deriving DecidableEq, Repr

/-- Everything one `Gather` call hands to the accumulator, plus its
return value (`ret = none` is a nil return). -/
structure Output where
  errors : List String
  statRecords : List StatRecord
  fieldsRecord : Option FieldsRecord
  ret : Option String
deriving DecidableEq, Repr

/-- The `statFields` map built for one stat entry
(source lines 144-160): a direct mapping of the 17 counters. -/
def statFields (s : ConntrackStat) : List (String × Nat) :=
  [("entries", s.entries),
   ("searched", s.searched),
   ("found", s.found),
   ("new", s.new),
   ("invalid", s.invalid),
   ("ignore", s.ignore),
   ("delete", s.delete),
   ("delete_list", s.deleteList),
   ("insert", s.insert),
   ("insert_failed", s.insertFailed),
   ("drop", s.drop),
   ("early_drop", s.earlyDrop),
   ("icmp_error", s.icmpError),
   ("expect_new", s.expectNew),
   ("expect_create", s.expectCreate),
   ("expect_delete", s.expectDelete),
   ("search_restart", s.searchRestart)]

/-- The tag map of the stat record at index `i`
(source lines 132-142). -/
def statTags (perCPU : Bool) (i : Nat) : List (String × String) :=
  if perCPU then [("cpu", "cpu" ++ toString i)] else [("cpu", "all")]

/-- The stats loop of `Gather` (source lines 130-161): one tagged
counter record per provider entry, in provider order. -/
def statRecordsOf (perCPU : Bool) (stats : List ConntrackStat) :
    List StatRecord :=
  stats.enum.map
    (fun p =>
      { name := inputName, tags := statTags perCPU p.1,
        fields := statFields p.2 })

/-- `Gather` (source lines 88-172).  Returns the collector as mutated by
`setDefaults` together with the produced output.  The stats pass runs
after the file pass and before the empty-fields check; a provider error
is recorded as a non-fatal error and the loop then ranges over no
entries; the cycle fails (with `moduleNotLoadedMsg`, and no fields
record) exactly when the fields map is empty, and otherwise one
fields-only record with nil tags is added and nil is returned. -/
def Gather (parse : String → ℚ × Bool) (fs : FS)
    (ps : Bool → Except String (List ConntrackStat)) (c : Conntrack) :
    Conntrack × Output :=
  let c := setDefaults c
  let st := fileLoop parse fs c.dirs c.files
  let statsRes : List ConntrackStat × List String :=
    if c.collectStats then
      match ps c.perCPU with
      | Except.error e => ([], [statsErrMsg e])
      | Except.ok s => (s, [])
    else ([], [])
  let statRecs := statRecordsOf c.perCPU statsRes.1
  if st.fields = [] then
    (c, { errors := st.errors ++ statsRes.2, statRecords := statRecs,
          fieldsRecord := none, ret := some moduleNotLoadedMsg })
  else
    (c, { errors := st.errors ++ statsRes.2, statRecords := statRecs,
          fieldsRecord :=
            some { name := inputName, fields := st.fields, tags := [] },
          ret := none })

/-- A concrete instance of the parse parameter used by witnesses:
decimal natural literals parse to their value, everything else is a
parse failure returning 0 (what `strconv.ParseFloat` returns on a syntax
error). -/
def decValue : List Char → Option Nat → Option Nat
  | [], acc => acc
  | c :: cs, acc =>
    match acc with
    | none => none
    | some n =>
      if c.isDigit then decValue cs (some (10 * n + (c.toNat - 48)))
      else none

/-- See `decValue`. -/
def parseDec (s : String) : ℚ × Bool :=
  if s.data = [] then (0, false)
  else
    match decValue s.data (some 0) with
    | some n => ((n : ℚ), true)
    | none => (0, false)

/-! ## Helper definitions for stating and proving the claims -/

/-- The `(dir, file)` candidates in the order the double loop of
`Gather` visits them: outer loop over directories, inner over files. -/
def candidates (dirs files : List String) : List (String × String) :=
  dirs.flatMap (fun d => files.map (fun f => (d, f)))

/-- The value the loop body writes for key `k` at one candidate, if any:
the parse result value of a readable file whose name maps to `k`
(written even when the parse fails, mirroring the two-value map
assignment in the source). -/
def candWrite (parse : String → ℚ × Bool) (fs : FS) (k : String)
    (df : String × String) : Option ℚ :=
  match metricKeyOf df.2 with
  | none => none
  | some k2 =>
    if k2 = k then
      match fs (joinPath df.1 df.2) with
      | FileState.readable contents => some ((parse (trimSpace contents)).1)
      | _ => none
    else none

/-- The value a candidate contributes for key `k` counting only
successful parses: `some v` exactly when the file exists, is readable,
and its trimmed contents parse to `v`. -/
def parsedWrite (parse : String → ℚ × Bool) (fs : FS) (k : String)
    (df : String × String) : Option ℚ :=
  match metricKeyOf df.2 with
  | none => none
  | some k2 =>
    if k2 = k then
      match fs (joinPath df.1 df.2) with
      | FileState.readable contents =>
        if (parse (trimSpace contents)).2 then some ((parse (trimSpace contents)).1)
        else none
      | _ => none
    else none

/-- Point update of the filesystem collaborator. -/
def fsSet (fs : FS) (p : String) (s : FileState) : FS :=
  fun q => if q = p then s else fs q

/-- The stat entries the stats pass iterates over: the provider's list
when `collect_stats` is set and the call succeeds, nothing otherwise. -/
def statsOf (ps : Bool → Except String (List ConntrackStat))
    (cs pc : Bool) : List ConntrackStat :=
  if cs then
    match ps pc with
    | Except.ok s => s
    | Except.error _ => []
  else []

/-- The non-fatal error the stats pass records, as a list. -/
def statsErrsOf (ps : Bool → Except String (List ConntrackStat))
    (cs pc : Bool) : List String :=
  if cs then
    match ps pc with
    | Except.ok _ => []
    | Except.error e => [statsErrMsg e]
  else []

/-! ## Basic lemmas -/

theorem lookup_upsert_self (m : List (String × ℚ)) (k : String) (v : ℚ) :
    (upsert m k v).lookup k = some v := by
  induction m with
  | nil => simp [upsert, List.lookup]
  | cons p rest ih =>
    obtain ⟨k1, v1⟩ := p
    by_cases h : k1 = k
    · simp [upsert, h, List.lookup]
    · have hb : (k == k1) = false := by simp [Ne.symm h]
      simp [upsert, h, List.lookup, hb, ih]

theorem lookup_upsert_ne (m : List (String × ℚ)) (k k2 : String) (v : ℚ)
    (h : k2 ≠ k) : (upsert m k v).lookup k2 = m.lookup k2 := by
  induction m with
  | nil =>
    have hb : (k2 == k) = false := by simp [h]
    simp [upsert, List.lookup, hb]
  | cons p rest ih =>
    obtain ⟨k1, v1⟩ := p
    by_cases h1 : k1 = k
    · subst h1
      have hb : (k2 == k1) = false := by simp [h]
      simp [upsert, List.lookup, hb]
    · by_cases h2 : k2 = k1
      · subst h2
        simp [upsert, h1, List.lookup]
      · have hb : (k2 == k1) = false := by simp [h2]
        simp [upsert, h1, List.lookup, hb, ih]

theorem fileLoop_eq_foldl (parse : String → ℚ × Bool) (fs : FS)
    (dirs files : List String) :
    fileLoop parse fs dirs files =
      (candidates dirs files).foldl
        (fun st df => processFile parse fs df.1 df.2 st)
        { fields := [], errors := [] } := by
  unfold fileLoop candidates
  generalize ({ fields := [], errors := [] } : GatherSt) = st
  induction dirs generalizing st with
  | nil => rfl
  | cons d rest ih =>
    rw [List.foldl_cons, List.flatMap_cons, List.foldl_append,
      List.foldl_map]
    exact ih _

theorem lookup_processFile (parse : String → ℚ × Bool) (fs : FS)
    (d f : String) (st : GatherSt) (k : String) :
    ((processFile parse fs d f st).fields).lookup k =
      match candWrite parse fs k (d, f) with
      | some v => some v
      | none => st.fields.lookup k := by
  cases hk : metricKeyOf f with
  | none => simp [processFile, candWrite, hk]
  | some k2 =>
    cases hf : fs (joinPath d f) with
    | absent => simp [processFile, candWrite, hk, hf]
    | unreadable =>
      by_cases h2 : k2 = k <;> simp [processFile, candWrite, hk, hf, h2]
    | readable contents =>
      by_cases h2 : k2 = k
      · subst h2
        by_cases hp : (parse (trimSpace contents)).2 <;>
          simp [processFile, candWrite, hk, hf, hp, lookup_upsert_self]
      · by_cases hp : (parse (trimSpace contents)).2 <;>
          simp [processFile, candWrite, hk, hf, hp, h2,
            lookup_upsert_ne _ _ _ _ (fun h => h2 h.symm)]

theorem mem_errors_processFile (parse : String → ℚ × Bool) (fs : FS)
    (d f : String) (st : GatherSt) (e : String) (h : e ∈ st.errors) :
    e ∈ (processFile parse fs d f st).errors := by
  cases hk : metricKeyOf f with
  | none => simpa [processFile, hk] using h
  | some k2 =>
    cases hf : fs (joinPath d f) with
    | absent => simpa [processFile, hk, hf] using h
    | unreadable => simp [processFile, hk, hf, h]
    | readable contents =>
      by_cases hp : (parse (trimSpace contents)).2 <;>
        simp [processFile, hk, hf, hp, h]

theorem mem_errors_foldl (parse : String → ℚ × Bool) (fs : FS)
    (l : List (String × String)) (st : GatherSt) (e : String)
    (h : e ∈ st.errors) :
    e ∈ (l.foldl (fun st df => processFile parse fs df.1 df.2 st)
          st).errors := by
  induction l generalizing st with
  | nil => exact h
  | cons df t ih =>
    exact ih _ (mem_errors_processFile parse fs df.1 df.2 st e h)

theorem unreadable_adds_error (parse : String → ℚ × Bool) (fs : FS)
    (d f : String) (st : GatherSt) (k : String)
    (hk : metricKeyOf f = some k)
    (hu : fs (joinPath d f) = FileState.unreadable) :
    readErrMsg (joinPath d f) ∈ (processFile parse fs d f st).errors := by
  simp [processFile, hk, hu]

theorem fields_processFile_fsSet_absent (parse : String → ℚ × Bool)
    (fs : FS) (p : String) (hp : fs p = FileState.unreadable)
    (d f : String) (st st2 : GatherSt) (hf : st.fields = st2.fields) :
    (processFile parse fs d f st).fields =
      (processFile parse (fsSet fs p FileState.absent) d f st2).fields := by
  cases hk : metricKeyOf f with
  | none => simp [processFile, hk, hf]
  | some k2 =>
    by_cases hq : joinPath d f = p
    · have h2 : fsSet fs p FileState.absent p = FileState.absent := by
        simp [fsSet]
      simp [processFile, hk, hq, hp, h2, hf]
    · have h2 : fsSet fs p FileState.absent (joinPath d f) =
          fs (joinPath d f) := by simp [fsSet, hq]
      cases hfs : fs (joinPath d f) with
      | absent => simp [processFile, hk, h2, hfs, hf]
      | unreadable => simp [processFile, hk, h2, hfs, hf]
      | readable contents =>
        by_cases hpr : (parse (trimSpace contents)).2 <;>
          simp [processFile, hk, h2, hfs, hpr, hf]

theorem fields_foldl_fsSet_absent (parse : String → ℚ × Bool) (fs : FS)
    (p : String) (hp : fs p = FileState.unreadable)
    (l : List (String × String)) (st st2 : GatherSt)
    (hf : st.fields = st2.fields) :
    ((l.foldl (fun st df => processFile parse fs df.1 df.2 st)
        st).fields) =
      ((l.foldl
          (fun st df =>
            processFile parse (fsSet fs p FileState.absent) df.1 df.2 st)
          st2).fields) := by
  induction l generalizing st st2 with
  | nil => exact hf
  | cons df t ih =>
    exact ih _ _
      (fields_processFile_fsSet_absent parse fs p hp df.1 df.2 st st2 hf)

theorem getLast?_cons_eq_match {α : Type} (v : α) (l : List α) :
    (v :: l).getLast? =
      match l.getLast? with
      | some w => some w
      | none => some v := by
  cases l with
  | nil => rfl
  | cons w t =>
    rw [List.getLast?_cons_cons]
    cases hL : (w :: t).getLast? with
    | none => simp at hL
    | some x => rfl

theorem lookup_foldl_eq_getLast? (parse : String → ℚ × Bool) (fs : FS)
    (k : String) (l : List (String × String)) (st : GatherSt) :
    ((l.foldl (fun st df => processFile parse fs df.1 df.2 st)
        st).fields).lookup k =
      match (l.filterMap (candWrite parse fs k)).getLast? with
      | some v => some v
      | none => st.fields.lookup k := by
  induction l generalizing st with
  | nil => rfl
  | cons df t ih =>
    rw [List.foldl_cons, ih]
    cases hc : candWrite parse fs k df with
    | none =>
      rw [List.filterMap_cons_none hc]
      have hstep := lookup_processFile parse fs df.1 df.2 st k
      cases ht : (t.filterMap (candWrite parse fs k)).getLast? with
      | some w => rfl
      | none =>
        simp only []
        rw [hstep, hc]
    | some v =>
      rw [List.filterMap_cons_some hc, getLast?_cons_eq_match]
      have hstep := lookup_processFile parse fs df.1 df.2 st k
      cases ht : (t.filterMap (candWrite parse fs k)).getLast? with
      | some w => rfl
      | none =>
        simp only []
        rw [hstep, hc]

theorem splitAtUnderscore_append (a b : List Char) (h : '_' ∉ a) :
    splitAtUnderscore (a ++ '_' :: b) = some (a, b) := by
  induction a with
  | nil => simp [splitAtUnderscore]
  | cons c t ih =>
    have hc : ¬ c = '_' := fun hc => h (hc ▸ List.mem_cons_self c t)
    have ht : '_' ∉ t := fun hm => h (List.mem_cons_of_mem c hm)
    simp only [List.cons_append, splitAtUnderscore, if_neg hc,
      List.append_eq, ih ht]

theorem splitAtUnderscore_none (a : List Char) (h : '_' ∉ a) :
    splitAtUnderscore a = none := by
  induction a with
  | nil => rfl
  | cons c t ih =>
    have hc : ¬ c = '_' := fun hc => h (hc ▸ List.mem_cons_self c t)
    have ht : '_' ∉ t := fun hm => h (List.mem_cons_of_mem c hm)
    simp only [splitAtUnderscore, if_neg hc, ih ht]

theorem string_mk_data (s : String) : String.mk s.data = s := rfl

theorem setDefaults_dirs (c : Conntrack) :
    (setDefaults c).dirs = if c.dirs = [] then dfltDirs else c.dirs := by
  obtain ⟨ds, fls, cs, pc⟩ := c
  cases ds <;> cases fls <;> simp [setDefaults]

theorem setDefaults_files (c : Conntrack) :
    (setDefaults c).files = if c.files = [] then dfltFiles else c.files := by
  obtain ⟨ds, fls, cs, pc⟩ := c
  cases ds <;> cases fls <;> simp [setDefaults]

theorem setDefaults_collectStats (c : Conntrack) :
    (setDefaults c).collectStats = c.collectStats := by
  obtain ⟨ds, fls, cs, pc⟩ := c
  cases ds <;> cases fls <;> simp [setDefaults]

theorem setDefaults_perCPU (c : Conntrack) :
    (setDefaults c).perCPU = c.perCPU := by
  obtain ⟨ds, fls, cs, pc⟩ := c
  cases ds <;> cases fls <;> simp [setDefaults]

theorem setDefaults_idem (c : Conntrack) :
    setDefaults (setDefaults c) = setDefaults c := by
  obtain ⟨ds, fls, cs, pc⟩ := c
  cases ds <;> cases fls <;> simp [setDefaults, dfltDirs, dfltFiles]

theorem Gather_eq (parse : String → ℚ × Bool) (fs : FS)
    (ps : Bool → Except String (List ConntrackStat)) (c : Conntrack) :
    Gather parse fs ps c =
      (setDefaults c,
       { errors :=
           (fileLoop parse fs (setDefaults c).dirs
               (setDefaults c).files).errors ++
             statsErrsOf ps (setDefaults c).collectStats
               (setDefaults c).perCPU,
         statRecords :=
           statRecordsOf (setDefaults c).perCPU
             (statsOf ps (setDefaults c).collectStats
               (setDefaults c).perCPU),
         fieldsRecord :=
           if (fileLoop parse fs (setDefaults c).dirs
                 (setDefaults c).files).fields = [] then none
           else
             some { name := inputName,
                    fields :=
                      (fileLoop parse fs (setDefaults c).dirs
                        (setDefaults c).files).fields,
                    tags := [] },
         ret :=
           if (fileLoop parse fs (setDefaults c).dirs
                 (setDefaults c).files).fields = [] then
             some moduleNotLoadedMsg
           else none }) := by
  by_cases hcs : (setDefaults c).collectStats
  · cases hps : ps (setDefaults c).perCPU with
    | error e =>
      by_cases hf : (fileLoop parse fs (setDefaults c).dirs
          (setDefaults c).files).fields = [] <;>
        simp [Gather, statsOf, statsErrsOf, hcs, hps, hf]
    | ok s =>
      by_cases hf : (fileLoop parse fs (setDefaults c).dirs
          (setDefaults c).files).fields = [] <;>
        simp [Gather, statsOf, statsErrsOf, hcs, hps, hf]
  · by_cases hf : (fileLoop parse fs (setDefaults c).dirs
        (setDefaults c).files).fields = [] <;>
      simp [Gather, statsOf, statsErrsOf, hcs, hf]

/-! ## Concrete instances used by witnesses and counterexamples -/

/-- A filesystem with no files at all. -/
def fsAllAbsent : FS := fun _ => FileState.absent

/-- A filesystem where the single configured candidate holds the
numeral 7. -/
def fsGood : FS :=
  fun p =>
    if p = "d/nf_conntrack_count" then FileState.readable "7"
    else FileState.absent

/-- A filesystem where the single configured candidate exists, is
readable, and holds a non-numeric string. -/
def fsParseFail : FS :=
  fun p =>
    if p = "d/nf_conntrack_count" then FileState.readable "abc"
    else FileState.absent

/-- A filesystem where two configured directories hold the same
candidate file with different values. -/
def fsTwoDirs : FS :=
  fun p =>
    if p = "d1/nf_conntrack_count" then FileState.readable "5"
    else if p = "d2/nf_conntrack_count" then FileState.readable "7"
    else FileState.absent

/-- A filesystem where three configured directories hold the same
candidate file: two parseable values (5, then 7) and, in the last
directory, a readable but non-numeric file. -/
def fsThreeDirs : FS :=
  fun p =>
    if p = "d1/nf_conntrack_count" then FileState.readable "5"
    else if p = "d2/nf_conntrack_count" then FileState.readable "7"
    else if p = "d3/nf_conntrack_count" then FileState.readable "abc"
    else FileState.absent

/-- A one-directory, one-file configuration with the stats pass off. -/
def cfgSingle : Conntrack :=
  { dirs := ["d"], files := ["nf_conntrack_count"],
    collectStats := false, perCPU := false }

/-- The same configuration over two directories. -/
def cfgTwoDirs : Conntrack :=
  { dirs := ["d1", "d2"], files := ["nf_conntrack_count"],
    collectStats := false, perCPU := false }

/-- A concrete stat entry. -/
def sampleStat : ConntrackStat :=
  { entries := 1234, searched := 10, found := 1, new := 5, invalid := 43,
    ignore := 13, delete := 3, deleteList := 5, insert := 9,
    insertFailed := 20, drop := 49, earlyDrop := 7, icmpError := 21,
    expectNew := 12, expectCreate := 44, expectDelete := 53,
    searchRestart := 31 }

/-- A second concrete stat entry. -/
def sampleStat2 : ConntrackStat :=
  { entries := 2, searched := 3, found := 4, new := 5, invalid := 6,
    ignore := 7, delete := 8, deleteList := 9, insert := 10,
    insertFailed := 11, drop := 12, earlyDrop := 13, icmpError := 14,
    expectNew := 15, expectCreate := 16, expectDelete := 17,
    searchRestart := 18 }

/-! ## Claims -/

/-- C1: evaluation of `Gather` at the failing input.  The claim states
that on a parse failure no entry is written for the candidate's metric
key; the code instead records the non-fatal error but also writes the
value returned by the failed parse call (0 for a syntax error) into the
field set, because the two-value Go assignment
`fields[metricKey], err = strconv.ParseFloat(v, 64)` stores into the map
before the error is examined.  With the single candidate readable with
contents `abc`, the emitted fields record contains
`ip_conntrack_count = 0` and the cycle even succeeds. -/
theorem parse_failure_still_writes_field :
    (Gather parseDec fsParseFail (fun _ => Except.ok []) cfgSingle).2 =
      { errors := [parseErrMsg "abc"],
        statRecords := [],
        fieldsRecord :=
          some { name := inputName,
                 fields := [("ip_conntrack_count", 0)], tags := [] },
        ret := none } := by
  decide

/-- C2: after the double loop, `Gather` returns the hard
module-not-loaded error and emits no fields record exactly when the
field set is empty; when it is non-empty, it emits one fields-only
record with no tags and returns success. -/
theorem empty_fieldset_hard_error (parse : String → ℚ × Bool) (fs : FS)
    (ps : Bool → Except String (List ConntrackStat)) (c : Conntrack) :
    ((fileLoop parse fs (setDefaults c).dirs
        (setDefaults c).files).fields = [] →
      (Gather parse fs ps c).2.ret = some moduleNotLoadedMsg ∧
      (Gather parse fs ps c).2.fieldsRecord = none) ∧
    ((fileLoop parse fs (setDefaults c).dirs
        (setDefaults c).files).fields ≠ [] →
      (Gather parse fs ps c).2.ret = none ∧
      (Gather parse fs ps c).2.fieldsRecord =
        some { name := inputName,
               fields := (fileLoop parse fs (setDefaults c).dirs
                 (setDefaults c).files).fields,
               tags := [] }) := by
  constructor <;> intro h <;> rw [Gather_eq] <;> simp [h]

/-- C2 witness: with every candidate absent the cycle fails with the
fixed error and emits no fields record; with one readable candidate
holding `7` the cycle succeeds and emits the one fields record. -/
theorem empty_fieldset_hard_error_witness :
    ((Gather parseDec fsAllAbsent (fun _ => Except.ok [])
        cfgSingle).2.ret = some moduleNotLoadedMsg ∧
      (Gather parseDec fsAllAbsent (fun _ => Except.ok [])
        cfgSingle).2.fieldsRecord = none) ∧
    ((Gather parseDec fsGood (fun _ => Except.ok [])
        cfgSingle).2.ret = none ∧
      (Gather parseDec fsGood (fun _ => Except.ok [])
        cfgSingle).2.fieldsRecord =
        some { name := inputName,
               fields := [("ip_conntrack_count", 7)], tags := [] }) := by
  refine ⟨(empty_fieldset_hard_error parseDec fsAllAbsent
      (fun _ => Except.ok []) cfgSingle).1 (by decide), ?_⟩
  have h := (empty_fieldset_hard_error parseDec fsGood
      (fun _ => Except.ok []) cfgSingle).2 (by decide)
  exact ⟨h.1, h.2.trans (by decide)⟩

/-- C3: a candidate filename containing an underscore gets metric key
`ip_` followed by the substring after the first underscore, so the two
naming families collapse onto one key (both `nf_conntrack_count` and
`ip_conntrack_count` yield `ip_conntrack_count`); a filename without an
underscore gets no key, and its loop iteration is a complete no-op — no
field, no filesystem access (the result is the unchanged state for every
filesystem), and no error. -/
theorem metricKey_normalization :
    metricKeyOf "nf_conntrack_count" = some "ip_conntrack_count" ∧
    metricKeyOf "ip_conntrack_count" = some "ip_conntrack_count" ∧
    (∀ pre suf : String, '_' ∉ pre.data →
        metricKeyOf (pre ++ "_" ++ suf) = some ("ip_" ++ suf)) ∧
    (∀ file : String, '_' ∉ file.data →
        metricKeyOf file = none ∧
        ∀ (parse : String → ℚ × Bool) (fs : FS) (d : String)
          (st : GatherSt), processFile parse fs d file st = st) := by
  refine ⟨by rfl, by rfl, ?_, ?_⟩
  · intro pre suf h
    have hdata : (pre ++ "_" ++ suf).data = pre.data ++ '_' :: suf.data := by
      rw [String.data_append, String.data_append]
      simp
    unfold metricKeyOf
    rw [hdata, splitAtUnderscore_append _ _ h]
  · intro file h
    have hmk : metricKeyOf file = none := by
      unfold metricKeyOf
      rw [splitAtUnderscore_none file.data h]
    refine ⟨hmk, ?_⟩
    intro parse fs d st
    simp [processFile, hmk]

/-- C3 witness: the general statement applied at `nf` / `x` and at the
underscore-free filename `abc`. -/
theorem metricKey_normalization_witness :
    metricKeyOf ("nf" ++ "_" ++ "x") = some ("ip_" ++ "x") ∧
    processFile parseDec fsAllAbsent "dir" "abc"
        { fields := [], errors := [] } =
      { fields := [], errors := [] } :=
  ⟨metricKey_normalization.2.2.1 "nf" "x" (by decide),
   (metricKey_normalization.2.2.2 "abc" (by decide)).2 parseDec
     fsAllAbsent "dir" { fields := [], errors := [] }⟩

/-- C4 counterexample: the claim as stated fails on the code.  With
directories `d1`, `d2`, `d3` all holding `nf_conntrack_count` — values
`5`, `7`, and the non-numeric `abc` — the last directory containing a
readable, parseable file for key `ip_conntrack_count` is `d2`, whose
value is 7 (second conjunct: the last successfully parsed value over the
candidates is 7); but the field-set value is 0, because the later
readable-but-unparseable candidate's failed parse still writes the
parser's returned value over it (the C1 bug). -/
theorem last_directory_wins_counterexample :
    ((fileLoop parseDec fsThreeDirs ["d1", "d2", "d3"]
        ["nf_conntrack_count"]).fields).lookup "ip_conntrack_count" =
      some 0 ∧
    ((candidates ["d1", "d2", "d3"] ["nf_conntrack_count"]).filterMap
        (parsedWrite parseDec fsThreeDirs
          "ip_conntrack_count")).getLast? = some 7 ∧
    ¬ ((fileLoop parseDec fsThreeDirs ["d1", "d2", "d3"]
        ["nf_conntrack_count"]).fields).lookup "ip_conntrack_count" =
      some 7 := by
  decide

/-- C4 (amended): overwrite semantics of the double loop.  Candidates are visited
in directory-major order (`candidates`), and when every candidate for
key `k` that exists and is readable also parses (the hypothesis: for the
candidates of this configuration, the written value for `k` coincides
with the successfully-parsed value, i.e. no readable-but-unparseable
candidate for `k` exists), the field-set value for `k` is the last
successfully parsed value in that order — so of several directories
providing the same key, the last one in configuration order wins. -/
theorem last_directory_wins (parse : String → ℚ × Bool) (fs : FS)
    (c : Conntrack) (k : String)
    (H : ∀ df ∈ candidates (setDefaults c).dirs (setDefaults c).files,
        candWrite parse fs k df = parsedWrite parse fs k df) :
    ((fileLoop parse fs (setDefaults c).dirs
        (setDefaults c).files).fields).lookup k =
      ((candidates (setDefaults c).dirs
          (setDefaults c).files).filterMap
        (parsedWrite parse fs k)).getLast? := by
  rw [fileLoop_eq_foldl, lookup_foldl_eq_getLast?,
    List.filterMap_congr H]
  cases ((candidates (setDefaults c).dirs
      (setDefaults c).files).filterMap
        (parsedWrite parse fs k)).getLast? with
  | none => simp [List.lookup]
  | some v => rfl

/-- C4 witness: two directories both provide `nf_conntrack_count`
(values 5 then 7); the resulting field value is 7, the value from the
last directory in configuration order. -/
theorem last_directory_wins_witness :
    ((fileLoop parseDec fsTwoDirs (setDefaults cfgTwoDirs).dirs
        (setDefaults cfgTwoDirs).files).fields).lookup
      "ip_conntrack_count" = some 7 :=
  (last_directory_wins parseDec fsTwoDirs cfgTwoDirs
      "ip_conntrack_count" (by decide)).trans (by decide)

/-- C5 counterexample: the claim says a newly constructed collector has
`collect_stats` defaulting to true; but the constructor the plugin
registry is given in the source's `init` function returns a zero-value
`Conntrack`, whose `collect_stats` is false. -/
theorem registry_collector_stats_off :
    ¬ registryConntrack.collectStats = true := by
  decide

/-- C5 (amended): a collector built by `NewConntrack` has
`collect_stats` true and `per_cpu` false, so for it the stats pass runs
and is not split per processing unit; the factory registered with the
plugin registry, however, returns a zero-value collector whose
`collect_stats` (and `per_cpu`) is false, so with an unset configuration
a registry-constructed collector never runs the stats pass. -/
theorem constructor_defaults :
    NewConntrack.collectStats = true ∧ NewConntrack.perCPU = false ∧
    registryConntrack.collectStats = false ∧
    registryConntrack.perCPU = false ∧
    (∀ (parse : String → ℚ × Bool) (fs : FS)
        (ps : Bool → Except String (List ConntrackStat)),
      (Gather parse fs ps registryConntrack).2.statRecords = []) ∧
    (∀ (parse : String → ℚ × Bool) (fs : FS)
        (stats : List ConntrackStat),
      (Gather parse fs (fun _ => Except.ok stats)
          NewConntrack).2.statRecords = statRecordsOf false stats) := by
  refine ⟨rfl, rfl, rfl, rfl, ?_, ?_⟩
  · intro parse fs ps
    rw [Gather_eq]
    simp [statsOf, setDefaults_collectStats, registryConntrack,
      statRecordsOf]
  · intro parse fs stats
    rw [Gather_eq]
    simp [statsOf, setDefaults_collectStats, setDefaults_perCPU,
      NewConntrack]

/-- C5 witness: the amended claim applied at concrete collaborators. -/
theorem constructor_defaults_witness :
    (Gather parseDec fsAllAbsent (fun _ => Except.ok [sampleStat])
        registryConntrack).2.statRecords = [] ∧
    (Gather parseDec fsAllAbsent (fun _ => Except.ok [sampleStat])
        NewConntrack).2.statRecords = statRecordsOf false [sampleStat] :=
  ⟨constructor_defaults.2.2.2.2.1 parseDec fsAllAbsent
      (fun _ => Except.ok [sampleStat]),
   constructor_defaults.2.2.2.2.2 parseDec fsAllAbsent [sampleStat]⟩

/-- C6: when `collect_stats` is on and the provider returns `stats`,
exactly one tagged counter record per entry is emitted, in provider
order; the record at index `i` carries the single tag `cpu = cpu<i>`
when `per_cpu` is true and `cpu = all` when it is false, and its fields
are the direct mapping of the 17 counters of entry `i`. -/
theorem stats_records_one_to_one (parse : String → ℚ × Bool) (fs : FS)
    (ps : Bool → Except String (List ConntrackStat)) (c : Conntrack)
    (stats : List ConntrackStat)
    (hcs : c.collectStats = true)
    (hps : ps c.perCPU = Except.ok stats) :
    (Gather parse fs ps c).2.statRecords.length = stats.length ∧
    (∀ (i : Nat) (s : ConntrackStat), stats[i]? = some s →
      (Gather parse fs ps c).2.statRecords[i]? =
        some { name := inputName,
               tags := if c.perCPU then [("cpu", "cpu" ++ toString i)]
                       else [("cpu", "all")],
               fields := statFields s }) := by
  rw [Gather_eq]
  have h1 : statsOf ps (setDefaults c).collectStats c.perCPU
      = stats := by
    simp [statsOf, setDefaults_collectStats, setDefaults_perCPU, hcs,
      hps]
  constructor
  · simp [h1, statRecordsOf, List.enum_length, setDefaults_perCPU]
  · intro i s hs
    simp [h1, statRecordsOf, List.getElem?_map, List.getElem?_enum, hs,
      statTags, setDefaults_perCPU]

/-- C6 witness: two provider entries with `per_cpu` true yield two
records; the record at index 1 carries tag `cpu1` and the 17 counters of
the second entry. -/
theorem stats_records_one_to_one_witness :
    (Gather parseDec fsGood
        (fun _ => Except.ok [sampleStat, sampleStat2])
        { dirs := ["d"], files := ["nf_conntrack_count"],
          collectStats := true, perCPU := true }).2.statRecords.length
      = 2 ∧
    (Gather parseDec fsGood
        (fun _ => Except.ok [sampleStat, sampleStat2])
        { dirs := ["d"], files := ["nf_conntrack_count"],
          collectStats := true, perCPU := true }).2.statRecords[1]? =
      some { name := inputName,
             tags := [("cpu", "cpu1")],
             fields :=
               [("entries", 2), ("searched", 3), ("found", 4),
                ("new", 5), ("invalid", 6), ("ignore", 7),
                ("delete", 8), ("delete_list", 9), ("insert", 10),
                ("insert_failed", 11), ("drop", 12), ("early_drop", 13),
                ("icmp_error", 14), ("expect_new", 15),
                ("expect_create", 16), ("expect_delete", 17),
                ("search_restart", 18)] } := by
  have h := stats_records_one_to_one parseDec fsGood
    (fun _ => Except.ok [sampleStat, sampleStat2])
    { dirs := ["d"], files := ["nf_conntrack_count"],
      collectStats := true, perCPU := true }
    [sampleStat, sampleStat2] rfl rfl
  exact ⟨h.1, (h.2 1 sampleStat2 rfl).trans (by decide)⟩

/-- C7: when `collect_stats` is on and the provider fails, the failure
is recorded as a non-fatal error, no stat record is emitted, and the
return value of the cycle still depends only on whether the file pass
produced any field. -/
theorem provider_failure_nonfatal (parse : String → ℚ × Bool) (fs : FS)
    (e : String) (c : Conntrack) (hcs : c.collectStats = true) :
    (Gather parse fs (fun _ => Except.error e) c).2.statRecords = [] ∧
    statsErrMsg e ∈
      (Gather parse fs (fun _ => Except.error e) c).2.errors ∧
    ((Gather parse fs (fun _ => Except.error e) c).2.ret = none ↔
      (fileLoop parse fs (setDefaults c).dirs
        (setDefaults c).files).fields ≠ []) := by
  rw [Gather_eq]
  have hcs2 : (setDefaults c).collectStats = true := by
    rw [setDefaults_collectStats, hcs]
  refine ⟨?_, ?_, ?_⟩
  · simp [statsOf, hcs2, statRecordsOf]
  · simp [statsErrsOf, hcs2]
  · by_cases hf : (fileLoop parse fs (setDefaults c).dirs
        (setDefaults c).files).fields = [] <;> simp [hf]

/-- C7 witness: provider failure with one readable candidate — no stat
records, the stats error recorded, and the cycle still succeeds. -/
theorem provider_failure_nonfatal_witness :
    (Gather parseDec fsGood (fun _ => Except.error "boom")
        { dirs := ["d"], files := ["nf_conntrack_count"],
          collectStats := true, perCPU := false }).2.statRecords = [] ∧
    statsErrMsg "boom" ∈
      (Gather parseDec fsGood (fun _ => Except.error "boom")
        { dirs := ["d"], files := ["nf_conntrack_count"],
          collectStats := true, perCPU := false }).2.errors ∧
    (Gather parseDec fsGood (fun _ => Except.error "boom")
        { dirs := ["d"], files := ["nf_conntrack_count"],
          collectStats := true, perCPU := false }).2.ret = none := by
  have h := provider_failure_nonfatal parseDec fsGood "boom"
    { dirs := ["d"], files := ["nf_conntrack_count"],
      collectStats := true, perCPU := false } rfl
  exact ⟨h.1, h.2.1, h.2.2.mpr (by decide)⟩

/-- C8: one existing but unreadable candidate records a non-fatal error
and changes nothing else: the emitted fields record is exactly the one
obtained if that path were absent (absent candidates are silently
skipped), so all other candidates' fields are collected unchanged. -/
theorem unreadable_file_isolated (parse : String → ℚ × Bool) (fs : FS)
    (ps : Bool → Except String (List ConntrackStat)) (c : Conntrack)
    (d f k : String)
    (hmem : (d, f) ∈ candidates (setDefaults c).dirs
        (setDefaults c).files)
    (hk : metricKeyOf f = some k)
    (hu : fs (joinPath d f) = FileState.unreadable) :
    readErrMsg (joinPath d f) ∈ (Gather parse fs ps c).2.errors ∧
    (Gather parse fs ps c).2.fieldsRecord =
      (Gather parse (fsSet fs (joinPath d f) FileState.absent) ps
          c).2.fieldsRecord := by
  have hfields :
      (fileLoop parse fs (setDefaults c).dirs
          (setDefaults c).files).fields =
        (fileLoop parse (fsSet fs (joinPath d f) FileState.absent)
          (setDefaults c).dirs (setDefaults c).files).fields := by
    rw [fileLoop_eq_foldl, fileLoop_eq_foldl]
    exact fields_foldl_fsSet_absent parse fs (joinPath d f) hu _ _ _ rfl
  constructor
  · rw [Gather_eq]
    obtain ⟨l1, l2, hsplit⟩ := List.append_of_mem hmem
    have hmem2 : readErrMsg (joinPath d f) ∈
        (fileLoop parse fs (setDefaults c).dirs
          (setDefaults c).files).errors := by
      rw [fileLoop_eq_foldl, hsplit, List.foldl_append, List.foldl_cons]
      exact mem_errors_foldl parse fs l2 _ _
        (unreadable_adds_error parse fs d f _ k hk hu)
    simp [hmem2]
  · rw [Gather_eq, Gather_eq, hfields]

/-- C8 witness: of two configured files in one directory, one is
unreadable and the other readable; the read error is recorded and the
fields record equals the one collected with the unreadable path
absent. -/
theorem unreadable_file_isolated_witness :
    readErrMsg (joinPath "d" "nf_conntrack_max") ∈
      (Gather parseDec
        (fun p =>
          if p = "d/nf_conntrack_count" then FileState.readable "7"
          else if p = "d/nf_conntrack_max" then FileState.unreadable
          else FileState.absent)
        (fun _ => Except.ok [])
        { dirs := ["d"],
          files := ["nf_conntrack_count", "nf_conntrack_max"],
          collectStats := false, perCPU := false }).2.errors ∧
    (Gather parseDec
        (fun p =>
          if p = "d/nf_conntrack_count" then FileState.readable "7"
          else if p = "d/nf_conntrack_max" then FileState.unreadable
          else FileState.absent)
        (fun _ => Except.ok [])
        { dirs := ["d"],
          files := ["nf_conntrack_count", "nf_conntrack_max"],
          collectStats := false, perCPU := false }).2.fieldsRecord =
      (Gather parseDec
        (fsSet
          (fun p =>
            if p = "d/nf_conntrack_count" then FileState.readable "7"
            else if p = "d/nf_conntrack_max" then FileState.unreadable
            else FileState.absent)
          (joinPath "d" "nf_conntrack_max") FileState.absent)
        (fun _ => Except.ok [])
        { dirs := ["d"],
          files := ["nf_conntrack_count", "nf_conntrack_max"],
          collectStats := false, perCPU := false }).2.fieldsRecord :=
  unreadable_file_isolated parseDec
    (fun p =>
      if p = "d/nf_conntrack_count" then FileState.readable "7"
      else if p = "d/nf_conntrack_max" then FileState.unreadable
      else FileState.absent)
    (fun _ => Except.ok [])
    { dirs := ["d"], files := ["nf_conntrack_count", "nf_conntrack_max"],
      collectStats := false, perCPU := false }
    "d" "nf_conntrack_max" "ip_conntrack_max" (by decide) (by decide)
    (by decide)

/-- C9: `Gather` is deterministic and idempotent across cycles.  The
only state a cycle mutates is the collector itself (`setDefaults`
overwrites empty configuration lists); a second cycle run on the
resulting collector against the same filesystem and provider produces
the identical collector and identical output — same fields, records,
errors and return value. -/
theorem gather_idempotent (parse : String → ℚ × Bool) (fs : FS)
    (ps : Bool → Except String (List ConntrackStat)) (c : Conntrack) :
    Gather parse fs ps (Gather parse fs ps c).1 = Gather parse fs ps c := by
  have h1 : (Gather parse fs ps c).1 = setDefaults c := by rw [Gather_eq]
  rw [h1, Gather_eq, Gather_eq, setDefaults_idem]

/-- C9 witness: the theorem applied at a concrete configuration,
filesystem and provider. -/
theorem gather_idempotent_witness :
    Gather parseDec fsGood (fun _ => Except.ok [sampleStat])
        (Gather parseDec fsGood (fun _ => Except.ok [sampleStat])
          cfgSingle).1 =
      Gather parseDec fsGood (fun _ => Except.ok [sampleStat])
        cfgSingle :=
  gather_idempotent parseDec fsGood (fun _ => Except.ok [sampleStat])
    cfgSingle

/-- C10: the stats pass runs before the empty-field-set check.  With
`collect_stats` on and an empty file-pass result, the provider's entries
are still emitted as tagged counter records while the same cycle returns
the fatal module-not-loaded error and emits no fields record. -/
theorem stats_emitted_despite_hard_error (parse : String → ℚ × Bool)
    (fs : FS) (ps : Bool → Except String (List ConntrackStat))
    (c : Conntrack) (stats : List ConntrackStat)
    (hcs : c.collectStats = true)
    (hps : ps c.perCPU = Except.ok stats)
    (hempty : (fileLoop parse fs (setDefaults c).dirs
        (setDefaults c).files).fields = []) :
    (Gather parse fs ps c).2.statRecords =
      statRecordsOf c.perCPU stats ∧
    (Gather parse fs ps c).2.ret = some moduleNotLoadedMsg ∧
    (Gather parse fs ps c).2.fieldsRecord = none := by
  rw [Gather_eq]
  refine ⟨?_, by simp [hempty], by simp [hempty]⟩
  simp [statsOf, setDefaults_collectStats, setDefaults_perCPU, hcs, hps]

/-- C10 witness: empty filesystem, stats pass on — the stat record is
emitted and the cycle returns the hard error. -/
theorem stats_emitted_despite_hard_error_witness :
    (Gather parseDec fsAllAbsent (fun _ => Except.ok [sampleStat])
        { dirs := ["d"], files := ["nf_conntrack_count"],
          collectStats := true, perCPU := false }).2.statRecords =
      statRecordsOf false [sampleStat] ∧
    (Gather parseDec fsAllAbsent (fun _ => Except.ok [sampleStat])
        { dirs := ["d"], files := ["nf_conntrack_count"],
          collectStats := true, perCPU := false }).2.ret =
      some moduleNotLoadedMsg ∧
    (Gather parseDec fsAllAbsent (fun _ => Except.ok [sampleStat])
        { dirs := ["d"], files := ["nf_conntrack_count"],
          collectStats := true, perCPU := false }).2.fieldsRecord =
      none :=
  stats_emitted_despite_hard_error parseDec fsAllAbsent
    (fun _ => Except.ok [sampleStat])
    { dirs := ["d"], files := ["nf_conntrack_count"],
      collectStats := true, perCPU := false }
    [sampleStat] rfl rfl (by decide)
